import Mathlib

/-!
Shallow embedding of `app/services/search_service.py` from the
OpenSearch-VectorDB repository, together with proofs about its
search-orchestration logic (score normalization, hybrid merge/dedup,
rerank invocation, error propagation).

Modelling conventions:
* Python `float` scores are modelled as `ℚ` (the claims under study are
  exact algebraic facts about division and ordering).
* Python exceptions are modelled with `Except ε`: a collaborator call that
  may raise returns `Except ε α`, and the service methods propagate errors
  monadically.  The `try/except` blocks in the source only print
  diagnostics and re-raise, so their semantics is plain propagation.
* Collaborators (`embedding_model.embed_query`, `vector_store.*`,
  `rerank_results`) are function parameters of the service operations.
* The constant `index_name=MASTER_INDEX` argument, passed unchanged in
  every collaborator call, is omitted from the collaborator signatures.
* Python `str(n)` for a nonnegative int (used by the f-string building the
  dedup key) is embedded as `decimalRepr`: most-significant-first decimal
  digit characters, with `"0"` for zero.
-/

namespace OSVDB

/-- Document metadata carried by each search hit: the `(doc_id, chunk_index)`
identity used for deduplication. -/
structure DocMetadata where
  doc_id : String
  chunk_index : Nat
deriving DecidableEq

/-- A single search hit as produced by the vector store collaborator:
metadata, collaborator-specific score, and opaque payload fields. -/
structure SearchResult where
  metadata : DocMetadata
  score : ℚ
  payload : String
deriving DecidableEq

/-- The search request shape: query string and requested result count.
`top_k` is an `Int` so that the invalid (non-positive) shapes of the error
taxonomy are representable. -/
structure SearchRequest where
  query : String
  top_k : Int
deriving DecidableEq

/-- The uniform response shape returned by every search mode. -/
structure SearchResponse where
  results : List SearchResult
deriving DecidableEq

/-- `SearchService._to_response`: wrap a result list into a response. -/
def to_response (results : List SearchResult) : SearchResponse :=
  ⟨results⟩

/-- Python `max` over a list of rationals (total on `[]` for definitional
convenience; every use site guards for nonemptiness exactly as the source
does). -/
def listMax : List ℚ → ℚ
  | [] => 0
  | x :: xs => xs.foldl max x

/-- `SearchService.vector_search`: embed the query, run a similarity search
for `top_k` hits, wrap verbatim. -/
def vector_search {ε : Type}
    (embed_query : String → Except ε (List ℚ))
    (similarity_search : List ℚ → Int → Except ε (List SearchResult))
    (request : SearchRequest) : Except ε SearchResponse := do
  let query_vec ← embed_query request.query
  let results ← similarity_search query_vec request.top_k
  pure (to_response results)

/-- `SearchService.keyword_search`: BM25 search, then—if the result list is
nonempty and its maximum score is strictly positive—divide every score by
that maximum. -/
def keyword_search {ε : Type}
    (bm25_search : String → Int → Except ε (List SearchResult))
    (request : SearchRequest) : Except ε SearchResponse := do
  let results ← bm25_search request.query request.top_k
  let results :=
    if results.isEmpty then results
    else
      let max_score := listMax (results.map (·.score))
      if 0 < max_score then
        results.map (fun r => { r with score := r.score / max_score })
      else results
  pure (to_response results)

/-- `SearchService.hybrid_search_native`: embed the query and delegate to the
engine's hybrid pipeline; the source's `try/except` merely logs and
re-raises, so any collaborator error propagates unmodified. -/
def hybrid_search_native {ε : Type}
    (embed_query : String → Except ε (List ℚ))
    (hybrid_search_with_pipeline :
      String → List ℚ → String → Int → Except ε (List SearchResult))
    (request : SearchRequest) : Except ε SearchResponse := do
  let query_vec ← embed_query request.query
  let results ← hybrid_search_with_pipeline
    request.query query_vec "hybrid-search-pipeline" request.top_k
  pure (to_response results)

/-- Python `str(n)` for a nonnegative int: decimal digit characters, most
significant first, `"0"` for zero. -/
def decimalRepr (n : Nat) : String :=
  if n = 0 then "0"
  else String.mk (((Nat.digits 10 n).map Nat.digitChar).reverse)

/-- The dedup key built in `hybrid_search_reranked`:
`f"{doc.metadata.doc_id}_{doc.metadata.chunk_index}"`. -/
def doc_key (doc : SearchResult) : String :=
  doc.metadata.doc_id ++ "_" ++ decimalRepr doc.metadata.chunk_index

/-- The `(doc_id, chunk_index)` identity pair of a hit. -/
def item_key (doc : SearchResult) : String × Nat :=
  (doc.metadata.doc_id, doc.metadata.chunk_index)

/-- One iteration of the merge loops in `hybrid_search_reranked`: skip the
hit if its key was already seen, otherwise append it and record its key.
The Python `set` of seen keys is modelled as a list queried by
membership. -/
def dedupStep (acc : List SearchResult × List String) (doc : SearchResult) :
    List SearchResult × List String :=
  if doc_key doc ∈ acc.2 then acc
  else (acc.1 ++ [doc], acc.2 ++ [doc_key doc])

/-- Steps 3.1–3.2 of `hybrid_search_reranked`: fold the vector results, then
the BM25 results, through the seen-key filter, starting from an empty
combined list and an empty seen set. -/
def combineResults (vector_results bm25_results : List SearchResult) :
    List SearchResult :=
  (bm25_results.foldl dedupStep (vector_results.foldl dedupStep ([], []))).1

/-- `expanded_k = max(request.top_k * 3, 30)` from `hybrid_search_reranked`. -/
def expanded_k (top_k : Int) : Int :=
  max (top_k * 3) 30

/-- `SearchService.hybrid_search_reranked`: over-fetch from both vector and
BM25 search, merge with key dedup, short-circuit on an empty candidate set,
otherwise rerank with the original query and `top_k`. -/
def hybrid_search_reranked {ε : Type}
    (embed_query : String → Except ε (List ℚ))
    (similarity_search : List ℚ → Int → Except ε (List SearchResult))
    (bm25_search : String → Int → Except ε (List SearchResult))
    (rerank_results : String → List SearchResult → Int → Except ε (List SearchResult))
    (request : SearchRequest) : Except ε SearchResponse := do
  let ek := expanded_k request.top_k
  let query_vec ← embed_query request.query
  let vector_results ← similarity_search query_vec ek
  let bm25_results ← bm25_search request.query ek
  let combined_docs := combineResults vector_results bm25_results
  if combined_docs.isEmpty then
    pure (to_response [])
  else do
    let reranked_docs ← rerank_results request.query combined_docs request.top_k
    pure (to_response reranked_docs)

/-- Errors surfaced to the HTTP caller: client-input rejection or a wrapped
collaborator failure. -/
inductive ServiceError (ε : Type) where
  | clientInput : ServiceError ε
  | collaborator : ε → ServiceError ε
deriving DecidableEq

/-- Modelled from the spec: the request-validation layer (the search router
and the pydantic `SearchRequest` model of `app/models/search_model.py`) is
not among the provided sources; per the spec's error taxonomy, a request of
invalid shape (empty query or non-positive `top_k`) is rejected as a
client-input error before any collaborator call is issued, and a
collaborator failure is propagated as a server-side failure. -/
def handle_search {ε : Type}
    (run : SearchRequest → Except ε SearchResponse)
    (request : SearchRequest) : Except (ServiceError ε) SearchResponse :=
  if request.query = "" ∨ request.top_k ≤ 0 then
    Except.error ServiceError.clientInput
  else
    match run request with
    | Except.ok resp => Except.ok resp
    | Except.error e => Except.error (ServiceError.collaborator e)

/-- Proof-side restatement of the merge loop as structural recursion on the
input list, threading the seen-key set explicitly. -/
def dedupByKey (seen : List String) : List SearchResult → List SearchResult
  | [] => []
  | d :: ds =>
    if doc_key d ∈ seen then dedupByKey seen ds
    else d :: dedupByKey (doc_key d :: seen) ds

/-- The dedup key as a function of the identity pair alone. -/
def pair_key (p : String × Nat) : String :=
  p.1 ++ "_" ++ decimalRepr p.2

/-- Pairwise distinctness of `(doc_id, chunk_index)` identities within a
result list. -/
def pairs_nodup (l : List SearchResult) : Prop :=
  (l.map item_key).Nodup

/-- The normalization step of `keyword_search` (lines 27–30 of the source):
every score divided by the maximum raw score. -/
def normalize_by_max (raw : List SearchResult) : List SearchResult :=
  raw.map (fun r => { r with score := r.score / listMax (raw.map (·.score)) })

/-- Concrete BM25 result list from the spec's normalization scenario:
raw scores `[12, 6, 0]`. -/
def sample_raw : List SearchResult :=
  [⟨⟨"d1", 0⟩, 12, ""⟩, ⟨⟨"d2", 0⟩, 6, ""⟩, ⟨⟨"d3", 0⟩, 0, ""⟩]

/-- A deterministic BM25 collaborator returning `sample_raw`. -/
def sample_bm25 : String → Int → Except Unit (List SearchResult) :=
  fun _ _ => Except.ok sample_raw

lemma digitChar_fin_facts :
    ∀ a b : Fin 10,
      (Nat.digitChar a.val = Nat.digitChar b.val → a = b) ∧
        Nat.digitChar a.val ≠ '_' := by
  decide

lemma digitChar_inj_lt {a b : Nat} (ha : a < 10) (hb : b < 10)
    (h : Nat.digitChar a = Nat.digitChar b) : a = b := by
  have := (digitChar_fin_facts ⟨a, ha⟩ ⟨b, hb⟩).1 h
  exact congrArg Fin.val this

lemma digitChar_ne_underscore {a : Nat} (ha : a < 10) :
    Nat.digitChar a ≠ '_' :=
  (digitChar_fin_facts ⟨a, ha⟩ ⟨a, ha⟩).2

lemma decimalRepr_no_underscore (n : Nat) : '_' ∉ (decimalRepr n).data := by
  unfold decimalRepr
  split
  · decide
  · intro hmem
    have : ('_' : Char) ∈ (Nat.digits 10 n).map Nat.digitChar := by
      simpa [List.mem_reverse] using hmem
    obtain ⟨d, hd, hchar⟩ := List.mem_map.mp this
    exact digitChar_ne_underscore (Nat.digits_lt_base (by norm_num) hd) hchar

lemma map_digitChar_inj :
    ∀ l₁ l₂ : List Nat, (∀ d ∈ l₁, d < 10) → (∀ d ∈ l₂, d < 10) →
      l₁.map Nat.digitChar = l₂.map Nat.digitChar → l₁ = l₂ := by
  intro l₁
  induction l₁ with
  | nil => intro l₂ _ _ h; cases l₂ <;> simp_all
  | cons a t ih =>
    intro l₂ h₁ h₂ h
    cases l₂ with
    | nil => simp_all
    | cons b t₂ =>
      simp only [List.map_cons, List.cons.injEq] at h
      have hab : a = b :=
        digitChar_inj_lt (h₁ a (List.mem_cons_self a t))
          (h₂ b (List.mem_cons_self b t₂)) h.1
      have htt : t = t₂ :=
        ih t₂ (fun d hd => h₁ d (List.mem_cons_of_mem a hd))
          (fun d hd => h₂ d (List.mem_cons_of_mem b hd)) h.2
      rw [hab, htt]

lemma string_eq_of_data {s t : String} (h : s.data = t.data) : s = t := by
  cases s
  cases t
  exact congrArg String.mk h

lemma decimalRepr_singleton_zero {n : Nat} (hn : n ≠ 0)
    (h : ((Nat.digits 10 n).map Nat.digitChar).reverse = ['0']) : False := by
  have hmap : (Nat.digits 10 n).map Nat.digitChar = ['0'] := by
    have := congrArg List.reverse h
    simpa using this
  cases hdig : Nat.digits 10 n with
  | nil => simp [hdig] at hmap
  | cons d ds =>
    rw [hdig] at hmap
    cases ds with
    | cons d₂ ds₂ => simp at hmap
    | nil =>
      simp only [List.map_cons, List.map_nil, List.cons.injEq, and_true] at hmap
      have hd10 : d < 10 :=
        Nat.digits_lt_base (by norm_num) (hdig ▸ List.mem_cons_self d [])
      have hd0 : d = 0 := digitChar_inj_lt hd10 (by norm_num) (by simpa using hmap)
      have := Nat.ofDigits_digits 10 n
      rw [hdig, hd0] at this
      simp [Nat.ofDigits] at this
      exact hn this.symm

lemma decimalRepr_inj {m n : Nat} (h : decimalRepr m = decimalRepr n) :
    m = n := by
  by_cases hm : m = 0 <;> by_cases hn : n = 0
  · rw [hm, hn]
  · exfalso
    unfold decimalRepr at h
    rw [if_pos hm, if_neg hn] at h
    exact decimalRepr_singleton_zero hn (congrArg String.data h).symm
  · exfalso
    unfold decimalRepr at h
    rw [if_neg hm, if_pos hn] at h
    exact decimalRepr_singleton_zero hm (congrArg String.data h)
  · unfold decimalRepr at h
    rw [if_neg hm, if_neg hn] at h
    have hdata := congrArg String.data h
    have hrev : (Nat.digits 10 m).map Nat.digitChar =
        (Nat.digits 10 n).map Nat.digitChar := by
      have := congrArg List.reverse hdata
      simpa using this
    have hdig : Nat.digits 10 m = Nat.digits 10 n :=
      map_digitChar_inj _ _
        (fun d hd => Nat.digits_lt_base (by norm_num) hd)
        (fun d hd => Nat.digits_lt_base (by norm_num) hd) hrev
    have := Nat.ofDigits_digits 10 m
    rw [hdig, Nat.ofDigits_digits] at this
    exact this.symm

lemma append_sep_inj :
    ∀ l₁ l₂ t₁ t₂ : List Char, '_' ∉ t₁ → '_' ∉ t₂ →
      l₁ ++ '_' :: t₁ = l₂ ++ '_' :: t₂ → l₁ = l₂ ∧ t₁ = t₂ := by
  intro l₁
  induction l₁ with
  | nil =>
    intro l₂ t₁ t₂ h₁ h₂ h
    cases l₂ with
    | nil => simpa using h
    | cons c l₂' =>
      exfalso
      simp only [List.nil_append, List.cons_append, List.cons.injEq] at h
      exact h₁ (h.2 ▸ List.mem_append_right l₂' (List.mem_cons_self _ _))
  | cons c l₁' ih =>
    intro l₂ t₁ t₂ h₁ h₂ h
    cases l₂ with
    | nil =>
      exfalso
      simp only [List.cons_append, List.nil_append, List.cons.injEq] at h
      exact h₂ (h.2 ▸ List.mem_append_right l₁' (List.mem_cons_self _ _))
    | cons d l₂' =>
      simp only [List.cons_append, List.cons.injEq] at h
      obtain ⟨hl, ht⟩ := ih l₂' t₁ t₂ h₁ h₂ h.2
      exact ⟨by rw [h.1, hl], ht⟩

lemma data_append (s t : String) : (s ++ t).data = s.data ++ t.data :=
  String.data_append s t

lemma doc_key_data (a : SearchResult) :
    (doc_key a).data =
      a.metadata.doc_id.data ++
        '_' :: (decimalRepr a.metadata.chunk_index).data := by
  unfold doc_key
  rw [data_append, data_append]
  simp

/-- The string dedup key identifies exactly the `(doc_id, chunk_index)`
pair: decimal digits contain no underscore, so the underscore introduced by
the f-string can always be recovered as the last one. -/
lemma doc_key_eq_iff (a b : SearchResult) :
    doc_key a = doc_key b ↔ item_key a = item_key b := by
  constructor
  · intro h
    have hdata := congrArg String.data h
    rw [doc_key_data, doc_key_data] at hdata
    obtain ⟨hid, hchunk⟩ :=
      append_sep_inj _ _ _ _
        (decimalRepr_no_underscore a.metadata.chunk_index)
        (decimalRepr_no_underscore b.metadata.chunk_index) hdata
    have h₁ : a.metadata.doc_id = b.metadata.doc_id := string_eq_of_data hid
    have h₂ : a.metadata.chunk_index = b.metadata.chunk_index :=
      decimalRepr_inj (string_eq_of_data hchunk)
    unfold item_key
    rw [h₁, h₂]
  · intro h
    unfold item_key at h
    have h₁ : a.metadata.doc_id = b.metadata.doc_id := congrArg Prod.fst h
    have h₂ : a.metadata.chunk_index = b.metadata.chunk_index :=
      congrArg Prod.snd h
    unfold doc_key
    rw [h₁, h₂]

lemma foldl_dedup_eq :
    ∀ (l : List SearchResult) (c : List SearchResult) (s s' : List String),
      (∀ k, k ∈ s ↔ k ∈ s') →
      (l.foldl dedupStep (c, s)).1 = c ++ dedupByKey s' l := by
  intro l
  induction l with
  | nil => intro c s s' _; simp [dedupByKey]
  | cons d ds ih =>
    intro c s s' hss
    by_cases hmem : doc_key d ∈ s
    · have hmem' : doc_key d ∈ s' := (hss _).mp hmem
      simp only [List.foldl_cons, dedupStep, hmem, if_pos, dedupByKey, hmem']
      exact ih c s s' hss
    · have hmem' : doc_key d ∉ s' := fun h => hmem ((hss _).mpr h)
      simp only [List.foldl_cons, dedupStep, hmem, if_neg, dedupByKey, hmem',
        if_false]
      have hstep : (ds.foldl dedupStep (c ++ [d], s ++ [doc_key d])).1 =
          (c ++ [d]) ++ dedupByKey (doc_key d :: s') ds := by
        refine ih (c ++ [d]) (s ++ [doc_key d]) (doc_key d :: s') ?_
        intro k
        simp only [List.mem_append, List.mem_singleton, List.mem_cons, hss k]
        tauto
      rw [hstep, List.append_assoc]
      simp

lemma combineResults_eq (v b : List SearchResult) :
    combineResults v b = dedupByKey [] (v ++ b) := by
  unfold combineResults
  rw [← List.foldl_append]
  simpa using foldl_dedup_eq (v ++ b) [] [] [] (fun k => Iff.rfl)

lemma mem_of_mem_dedupByKey :
    ∀ (l : List SearchResult) (s : List String) (x : SearchResult),
      x ∈ dedupByKey s l → x ∈ l := by
  intro l
  induction l with
  | nil => intro s x h; simp [dedupByKey] at h
  | cons d ds ih =>
    intro s x h
    unfold dedupByKey at h
    split at h
    · exact List.mem_cons_of_mem d (ih s x h)
    · rcases List.mem_cons.mp h with h | h
      · exact h ▸ List.mem_cons_self d ds
      · exact List.mem_cons_of_mem d (ih _ x h)

lemma key_not_seen_of_mem_dedupByKey :
    ∀ (l : List SearchResult) (s : List String) (x : SearchResult),
      x ∈ dedupByKey s l → doc_key x ∉ s := by
  intro l
  induction l with
  | nil => intro s x h; simp [dedupByKey] at h
  | cons d ds ih =>
    intro s x h
    unfold dedupByKey at h
    split at h
    · exact ih s x h
    · rcases List.mem_cons.mp h with h | h
      · subst h; assumption
      · intro hs
        exact ih _ x h (List.mem_cons_of_mem _ hs)

lemma dedupByKey_keys_nodup :
    ∀ (l : List SearchResult) (s : List String),
      ((dedupByKey s l).map doc_key).Nodup := by
  intro l
  induction l with
  | nil => intro s; simp [dedupByKey]
  | cons d ds ih =>
    intro s
    unfold dedupByKey
    split
    · exact ih s
    · simp only [List.map_cons, List.nodup_cons]
      refine ⟨?_, ih _⟩
      intro hmem
      obtain ⟨x, hx, hkey⟩ := List.mem_map.mp hmem
      exact key_not_seen_of_mem_dedupByKey ds _ x hx
        (hkey ▸ List.mem_cons_self _ _)

lemma key_mem_dedupByKey :
    ∀ (l : List SearchResult) (s : List String) (k : String),
      k ∉ s → k ∈ l.map doc_key → k ∈ (dedupByKey s l).map doc_key := by
  intro l
  induction l with
  | nil => intro s k _ h; simp at h
  | cons d ds ih =>
    intro s k hks hk
    unfold dedupByKey
    simp only [List.map_cons, List.mem_cons] at hk
    by_cases hmem : doc_key d ∈ s
    · rw [if_pos hmem]
      rcases hk with hk | hk
      · exact absurd (hk ▸ hmem) hks
      · exact ih s k hks hk
    · rw [if_neg hmem]
      simp only [List.map_cons, List.mem_cons]
      by_cases hkd : k = doc_key d
      · exact Or.inl hkd
      · rcases hk with hk | hk
        · exact absurd hk hkd
        · refine Or.inr (ih (doc_key d :: s) k ?_ hk)
          intro hcon
          rcases List.mem_cons.mp hcon with h | h
          · exact hkd h
          · exact hks h

lemma dedupByKey_append :
    ∀ (l₁ l₂ : List SearchResult) (s : List String),
      ∃ s₂ : List String,
        dedupByKey s (l₁ ++ l₂) = dedupByKey s l₁ ++ dedupByKey s₂ l₂ ∧
          ∀ k, k ∈ s₂ ↔ (k ∈ s ∨ k ∈ (dedupByKey s l₁).map doc_key) := by
  intro l₁
  induction l₁ with
  | nil =>
    intro l₂ s
    exact ⟨s, by simp [dedupByKey], fun k => by simp [dedupByKey]⟩
  | cons d ds ih =>
    intro l₂ s
    by_cases hmem : doc_key d ∈ s
    · obtain ⟨s₂, heq, hiff⟩ := ih l₂ s
      refine ⟨s₂, ?_, ?_⟩
      · simpa [dedupByKey, hmem] using heq
      · intro k
        simpa [dedupByKey, hmem] using hiff k
    · obtain ⟨s₂, heq, hiff⟩ := ih l₂ (doc_key d :: s)
      refine ⟨s₂, ?_, ?_⟩
      · show dedupByKey s (d :: (ds ++ l₂)) =
          dedupByKey s (d :: ds) ++ dedupByKey s₂ l₂
        simp only [dedupByKey, if_neg hmem]
        rw [heq]
        simp
      · intro k
        have := hiff k
        simp only [List.mem_cons] at this
        rw [this]
        simp only [dedupByKey]
        rw [if_neg hmem]
        simp only [List.map_cons, List.mem_cons]
        tauto

lemma combined_keys_nodup (v b : List SearchResult) :
    ((combineResults v b).map doc_key).Nodup := by
  rw [combineResults_eq]
  exact dedupByKey_keys_nodup (v ++ b) []

lemma doc_key_eq_pair_key (r : SearchResult) :
    doc_key r = pair_key (item_key r) :=
  rfl

lemma combined_pairs_nodup (v b : List SearchResult) :
    ((combineResults v b).map item_key).Nodup := by
  have h := combined_keys_nodup v b
  have hfact : (combineResults v b).map doc_key =
      ((combineResults v b).map item_key).map pair_key := by
    rw [List.map_map]
    rfl
  rw [hfact] at h
  exact List.Nodup.of_map pair_key h

lemma le_foldl_max (xs : List ℚ) : ∀ a : ℚ, a ≤ xs.foldl max a := by
  induction xs with
  | nil => intro a; exact le_refl a
  | cons x xs ih =>
    intro a
    exact le_trans (le_max_left a x) (ih (max a x))

lemma mem_le_foldl_max (xs : List ℚ) :
    ∀ (a b : ℚ), b ∈ xs → b ≤ xs.foldl max a := by
  induction xs with
  | nil => intro a b h; simp at h
  | cons x xs ih =>
    intro a b h
    rw [List.foldl_cons]
    rcases List.mem_cons.mp h with h | h
    · subst h
      exact le_trans (le_max_right a b) (le_foldl_max xs (max a b))
    · exact ih (max a x) b h

lemma foldl_max_mem (xs : List ℚ) :
    ∀ a : ℚ, xs.foldl max a = a ∨ xs.foldl max a ∈ xs := by
  induction xs with
  | nil => intro a; exact Or.inl rfl
  | cons x xs ih =>
    intro a
    rcases ih (max a x) with h | h
    · rcases max_choice a x with hm | hm
      · exact Or.inl (by rw [List.foldl_cons, h, hm])
      · exact Or.inr (by rw [List.foldl_cons, h, hm]; exact List.mem_cons_self x xs)
    · exact Or.inr (List.mem_cons_of_mem x h)

lemma le_listMax {x : ℚ} {l : List ℚ} (hx : x ∈ l) : x ≤ listMax l := by
  cases l with
  | nil => simp at hx
  | cons a t =>
    rcases List.mem_cons.mp hx with h | h
    · exact h ▸ le_foldl_max t a
    · exact mem_le_foldl_max t a x h

lemma listMax_mem {l : List ℚ} (hl : l ≠ []) : listMax l ∈ l := by
  cases l with
  | nil => exact absurd rfl hl
  | cons a t =>
    rcases foldl_max_mem t a with h | h
    · exact List.mem_cons.mpr (Or.inl h)
    · exact List.mem_cons_of_mem a h

lemma keyword_search_eq {ε : Type}
    (bm25_search : String → Int → Except ε (List SearchResult))
    (request : SearchRequest) (raw : List SearchResult)
    (h : bm25_search request.query request.top_k = Except.ok raw) :
    keyword_search bm25_search request = Except.ok (to_response
      (if raw.isEmpty then raw
       else if 0 < listMax (raw.map (·.score)) then
         raw.map (fun r => { r with score := r.score / listMax (raw.map (·.score)) })
       else raw)) := by
  unfold keyword_search
  rw [h]
  rfl

lemma keyword_search_eq_pos {ε : Type}
    (bm25_search : String → Int → Except ε (List SearchResult))
    (request : SearchRequest) (raw : List SearchResult)
    (h : bm25_search request.query request.top_k = Except.ok raw)
    (hne : raw ≠ [])
    (hpos : 0 < listMax (raw.map (·.score))) :
    keyword_search bm25_search request = Except.ok (to_response
      (raw.map (fun r =>
        { r with score := r.score / listMax (raw.map (·.score)) }))) := by
  rw [keyword_search_eq bm25_search request raw h]
  rw [if_neg (by simpa [List.isEmpty_iff] using hne), if_pos hpos]

lemma keyword_search_eq_nonpos {ε : Type}
    (bm25_search : String → Int → Except ε (List SearchResult))
    (request : SearchRequest) (raw : List SearchResult)
    (h : bm25_search request.query request.top_k = Except.ok raw)
    (hmax : listMax (raw.map (·.score)) ≤ 0) :
    keyword_search bm25_search request = Except.ok (to_response raw) := by
  rw [keyword_search_eq bm25_search request raw h]
  by_cases hne : raw.isEmpty
  · rw [if_pos hne]
  · rw [if_neg hne, if_neg (not_lt.mpr hmax)]

lemma hybrid_search_reranked_eq {ε : Type}
    (embed_query : String → Except ε (List ℚ))
    (similarity_search : List ℚ → Int → Except ε (List SearchResult))
    (bm25_search : String → Int → Except ε (List SearchResult))
    (rerank_results : String → List SearchResult → Int → Except ε (List SearchResult))
    (request : SearchRequest) (query_vec : List ℚ)
    (vres bres : List SearchResult)
    (he : embed_query request.query = Except.ok query_vec)
    (hv : similarity_search query_vec (expanded_k request.top_k) = Except.ok vres)
    (hb : bm25_search request.query (expanded_k request.top_k) = Except.ok bres) :
    hybrid_search_reranked embed_query similarity_search bm25_search
        rerank_results request =
      if (combineResults vres bres).isEmpty then Except.ok (to_response [])
      else Except.map to_response
        (rerank_results request.query (combineResults vres bres)
          request.top_k) := by
  unfold hybrid_search_reranked
  rw [show expanded_k request.top_k = expanded_k request.top_k from rfl]
  simp only [bind, Except.bind, he, hv, hb]
  split
  · rfl
  · cases rerank_results request.query (combineResults vres bres) request.top_k
    · rfl
    · rfl

lemma hybrid_search_native_eq {ε : Type}
    (embed_query : String → Except ε (List ℚ))
    (hybrid_search_with_pipeline :
      String → List ℚ → String → Int → Except ε (List SearchResult))
    (request : SearchRequest) (query_vec : List ℚ)
    (he : embed_query request.query = Except.ok query_vec) :
    hybrid_search_native embed_query hybrid_search_with_pipeline request =
      Except.map to_response
        (hybrid_search_with_pipeline request.query query_vec
          "hybrid-search-pipeline" request.top_k) := by
  unfold hybrid_search_native
  simp only [bind, Except.bind, he]
  cases hybrid_search_with_pipeline request.query query_vec
      "hybrid-search-pipeline" request.top_k
  · rfl
  · rfl

/-- C1: in reranked-hybrid mode the merged candidate list is built by
iterating the vector results first and then the BM25 results, appending an
item only if its `(doc_id, chunk_index)` key is unseen; hence for every pair
present in both candidate sets, exactly one merged item carries that pair,
that item is the vector-search instance (a member of the vector result
list, score and payload included), and the BM25 duplicate is dropped. -/
theorem claim1_merge_keeps_vector_instance
    (vres bres : List SearchResult) (p : String × Nat)
    (hx : ∃ x ∈ vres, item_key x = p) (_hy : ∃ y ∈ bres, item_key y = p) :
    (∃ z, z ∈ combineResults vres bres ∧ item_key z = p ∧ z ∈ vres) ∧
      (∀ z ∈ combineResults vres bres, item_key z = p → z ∈ vres) ∧
      (∀ z₁ ∈ combineResults vres bres, ∀ z₂ ∈ combineResults vres bres,
        item_key z₁ = p → item_key z₂ = p → z₁ = z₂) := by
  obtain ⟨x, hxv, hxp⟩ := hx
  have hkey_all : ∀ z : SearchResult, item_key z = p → doc_key z = doc_key x :=
    fun z hz => (doc_key_eq_iff z x).mpr (hz.trans hxp.symm)
  obtain ⟨s₂, heq, hiff⟩ := dedupByKey_append vres bres []
  have hcomb : combineResults vres bres =
      dedupByKey [] vres ++ dedupByKey s₂ bres := by
    rw [combineResults_eq]
    exact heq
  have hkx : doc_key x ∈ (dedupByKey [] vres).map doc_key :=
    key_mem_dedupByKey vres [] (doc_key x) (by simp)
      (List.mem_map_of_mem doc_key hxv)
  have hks₂ : doc_key x ∈ s₂ := (hiff (doc_key x)).mpr (Or.inr hkx)
  have hball : ∀ z ∈ combineResults vres bres, item_key z = p → z ∈ vres := by
    intro z hz hzp
    rw [hcomb] at hz
    rcases List.mem_append.mp hz with h | h
    · exact mem_of_mem_dedupByKey vres [] z h
    · exfalso
      refine key_not_seen_of_mem_dedupByKey bres s₂ z h ?_
      rw [hkey_all z hzp]
      exact hks₂
  have hkc : doc_key x ∈ (dedupByKey [] (vres ++ bres)).map doc_key :=
    key_mem_dedupByKey (vres ++ bres) [] (doc_key x) (by simp)
      (List.mem_map_of_mem doc_key (List.mem_append_left bres hxv))
  obtain ⟨z, hzc, hzkey⟩ := List.mem_map.mp hkc
  have hzc' : z ∈ combineResults vres bres := by
    rw [combineResults_eq]
    exact hzc
  have hzp : item_key z = p := ((doc_key_eq_iff z x).mp hzkey).trans hxp
  have hu := List.inj_on_of_nodup_map (combined_keys_nodup vres bres)
  refine ⟨⟨z, hzc', hzp, hball z hzc' hzp⟩, hball, ?_⟩
  intro z₁ h₁ z₂ h₂ hp₁ hp₂
  exact hu h₁ h₂ ((hkey_all z₁ hp₁).trans (hkey_all z₂ hp₂).symm)

/-- C1 witness: the spec's scenario (vector results for d1 and d2, BM25
results for d1 and d3; the pair ("d1", 0) occurs in both sets). -/
theorem claim1_merge_keeps_vector_instance_witness :
    (∃ x ∈ [SearchResult.mk ⟨"d1", 0⟩ (9 / 10) "",
        SearchResult.mk ⟨"d2", 0⟩ (8 / 10) ""], item_key x = ("d1", 0)) ∧
      (∃ y ∈ [SearchResult.mk ⟨"d1", 0⟩ 12 "",
        SearchResult.mk ⟨"d3", 0⟩ 9 ""], item_key y = ("d1", 0)) ∧
      ((∃ z, z ∈ combineResults
            [SearchResult.mk ⟨"d1", 0⟩ (9 / 10) "",
              SearchResult.mk ⟨"d2", 0⟩ (8 / 10) ""]
            [SearchResult.mk ⟨"d1", 0⟩ 12 "", SearchResult.mk ⟨"d3", 0⟩ 9 ""] ∧
          item_key z = ("d1", 0) ∧
          z ∈ [SearchResult.mk ⟨"d1", 0⟩ (9 / 10) "",
            SearchResult.mk ⟨"d2", 0⟩ (8 / 10) ""]) ∧
        (∀ z ∈ combineResults
            [SearchResult.mk ⟨"d1", 0⟩ (9 / 10) "",
              SearchResult.mk ⟨"d2", 0⟩ (8 / 10) ""]
            [SearchResult.mk ⟨"d1", 0⟩ 12 "", SearchResult.mk ⟨"d3", 0⟩ 9 ""],
          item_key z = ("d1", 0) →
            z ∈ [SearchResult.mk ⟨"d1", 0⟩ (9 / 10) "",
              SearchResult.mk ⟨"d2", 0⟩ (8 / 10) ""]) ∧
        (∀ z₁ ∈ combineResults
            [SearchResult.mk ⟨"d1", 0⟩ (9 / 10) "",
              SearchResult.mk ⟨"d2", 0⟩ (8 / 10) ""]
            [SearchResult.mk ⟨"d1", 0⟩ 12 "", SearchResult.mk ⟨"d3", 0⟩ 9 ""],
          ∀ z₂ ∈ combineResults
            [SearchResult.mk ⟨"d1", 0⟩ (9 / 10) "",
              SearchResult.mk ⟨"d2", 0⟩ (8 / 10) ""]
            [SearchResult.mk ⟨"d1", 0⟩ 12 "", SearchResult.mk ⟨"d3", 0⟩ 9 ""],
          item_key z₁ = ("d1", 0) → item_key z₂ = ("d1", 0) → z₁ = z₂)) := by
  refine ⟨?_, ?_, ?_⟩
  · exact ⟨SearchResult.mk ⟨"d1", 0⟩ (9 / 10) "", by simp, rfl⟩
  · exact ⟨SearchResult.mk ⟨"d1", 0⟩ 12 "", by simp, rfl⟩
  · exact claim1_merge_keeps_vector_instance _ _ ("d1", 0)
      ⟨SearchResult.mk ⟨"d1", 0⟩ (9 / 10) "", by simp, rfl⟩
      ⟨SearchResult.mk ⟨"d1", 0⟩ 12 "", by simp, rfl⟩

/-- C2 fails as stated: a BM25 result set containing a strictly positive
and a strictly negative raw score is normalized to scores `[1, -1/2]`, and
`-1/2` does not lie in `[0, 1]`. -/
theorem claim2_negative_score_counterexample :
    keyword_search
        (fun _ _ => Except.ok (ε := Unit)
          [SearchResult.mk ⟨"d1", 0⟩ 12 "", SearchResult.mk ⟨"d2", 0⟩ (-6) ""])
        ⟨"alpha", 3⟩ =
      Except.ok (to_response
        [SearchResult.mk ⟨"d1", 0⟩ 1 "",
          SearchResult.mk ⟨"d2", 0⟩ (-(1 / 2)) ""]) ∧
      ¬ (0 ≤ (-(1 / 2) : ℚ)) := by
  constructor
  · rw [keyword_search_eq _ _ _ rfl]
    norm_num [listMax, max_def, to_response, SearchResult.mk.injEq]
  · norm_num

/-- C2 (amended): for a non-empty BM25 result set with at least one strictly
positive score, every normalized score is at most 1 and the maximum
normalized score equals 1; the lower bound 0 additionally requires every
raw score to be nonnegative (a raw set with a negative score normalizes
that score to a negative value). -/
theorem claim2_keyword_normalization {ε : Type}
    (bm25_search : String → Int → Except ε (List SearchResult))
    (request : SearchRequest) (raw : List SearchResult)
    (h : bm25_search request.query request.top_k = Except.ok raw)
    (hne : raw ≠ []) (hpos : ∃ r ∈ raw, 0 < r.score) :
    keyword_search bm25_search request =
      Except.ok (to_response (normalize_by_max raw)) ∧
      (∀ r ∈ normalize_by_max raw, r.score ≤ 1) ∧
      listMax ((normalize_by_max raw).map (·.score)) = 1 ∧
      ((∀ r ∈ raw, 0 ≤ r.score) →
        ∀ r ∈ normalize_by_max raw, 0 ≤ r.score ∧ r.score ≤ 1) := by
  obtain ⟨r₀, hr₀, hr₀pos⟩ := hpos
  have hm : 0 < listMax (raw.map (·.score)) :=
    lt_of_lt_of_le hr₀pos (le_listMax (List.mem_map_of_mem _ hr₀))
  have hub : ∀ r ∈ normalize_by_max raw, r.score ≤ 1 := by
    intro r hr
    simp only [normalize_by_max, List.mem_map] at hr
    obtain ⟨r', hr', rfl⟩ := hr
    exact (div_le_one hm).mpr (le_listMax (List.mem_map_of_mem _ hr'))
  have hone : (1 : ℚ) ∈ (normalize_by_max raw).map (·.score) := by
    have hmem : listMax (raw.map (·.score)) ∈ raw.map (·.score) :=
      listMax_mem (by simpa using hne)
    obtain ⟨r₁, hr₁, hr₁s⟩ := List.mem_map.mp hmem
    simp only [normalize_by_max, List.map_map, List.mem_map]
    refine ⟨r₁, hr₁, ?_⟩
    simp only [Function.comp]
    rw [hr₁s]
    exact div_self hm.ne'
  have hmax1 : listMax ((normalize_by_max raw).map (·.score)) = 1 := by
    refine le_antisymm ?_ (le_listMax hone)
    have hmm : listMax ((normalize_by_max raw).map (·.score)) ∈
        (normalize_by_max raw).map (·.score) := by
      refine listMax_mem ?_
      simp only [normalize_by_max, List.map_map]
      simpa using hne
    obtain ⟨r₁, hr₁, hr₁s⟩ := List.mem_map.mp hmm
    exact hr₁s ▸ hub r₁ hr₁
  refine ⟨keyword_search_eq_pos bm25_search request raw h hne hm, hub, hmax1, ?_⟩
  intro h0 r hr
  refine ⟨?_, hub r hr⟩
  simp only [normalize_by_max, List.mem_map] at hr
  obtain ⟨r', hr', rfl⟩ := hr
  exact div_nonneg (h0 r' hr') hm.le

/-- C2 witness: the spec's scenario, raw scores `[12, 6, 0]`. -/
theorem claim2_keyword_normalization_witness :
    ((fun (_ : String) (_ : Int) => Except.ok (ε := Unit)
        [SearchResult.mk ⟨"d1", 0⟩ 12 "", SearchResult.mk ⟨"d2", 0⟩ 6 "",
          SearchResult.mk ⟨"d3", 0⟩ 0 ""]) "alpha" 3 =
      Except.ok [SearchResult.mk ⟨"d1", 0⟩ 12 "",
        SearchResult.mk ⟨"d2", 0⟩ 6 "", SearchResult.mk ⟨"d3", 0⟩ 0 ""]) ∧
      ([SearchResult.mk ⟨"d1", 0⟩ (12 : ℚ) "", SearchResult.mk ⟨"d2", 0⟩ 6 "",
        SearchResult.mk ⟨"d3", 0⟩ 0 ""] ≠ []) ∧
      (∃ r ∈ [SearchResult.mk ⟨"d1", 0⟩ (12 : ℚ) "",
        SearchResult.mk ⟨"d2", 0⟩ 6 "", SearchResult.mk ⟨"d3", 0⟩ 0 ""],
        0 < r.score) ∧
      (keyword_search
          (fun _ _ => Except.ok (ε := Unit)
            [SearchResult.mk ⟨"d1", 0⟩ 12 "", SearchResult.mk ⟨"d2", 0⟩ 6 "",
              SearchResult.mk ⟨"d3", 0⟩ 0 ""]) ⟨"alpha", 3⟩ =
        Except.ok (to_response (normalize_by_max
          [SearchResult.mk ⟨"d1", 0⟩ 12 "", SearchResult.mk ⟨"d2", 0⟩ 6 "",
            SearchResult.mk ⟨"d3", 0⟩ 0 ""])) ∧
        (∀ r ∈ normalize_by_max
          [SearchResult.mk ⟨"d1", 0⟩ 12 "", SearchResult.mk ⟨"d2", 0⟩ 6 "",
            SearchResult.mk ⟨"d3", 0⟩ 0 ""], r.score ≤ 1) ∧
        listMax ((normalize_by_max
          [SearchResult.mk ⟨"d1", 0⟩ 12 "", SearchResult.mk ⟨"d2", 0⟩ 6 "",
            SearchResult.mk ⟨"d3", 0⟩ 0 ""]).map (·.score)) = 1 ∧
        ((∀ r ∈ [SearchResult.mk ⟨"d1", 0⟩ (12 : ℚ) "",
            SearchResult.mk ⟨"d2", 0⟩ 6 "", SearchResult.mk ⟨"d3", 0⟩ 0 ""],
            0 ≤ r.score) →
          ∀ r ∈ normalize_by_max
            [SearchResult.mk ⟨"d1", 0⟩ 12 "", SearchResult.mk ⟨"d2", 0⟩ 6 "",
              SearchResult.mk ⟨"d3", 0⟩ 0 ""],
            0 ≤ r.score ∧ r.score ≤ 1)) := by
  refine ⟨rfl, by simp, ⟨SearchResult.mk ⟨"d1", 0⟩ 12 "", by simp, by norm_num⟩, ?_⟩
  exact claim2_keyword_normalization _ ⟨"alpha", 3⟩ _ rfl (by simp)
    ⟨SearchResult.mk ⟨"d1", 0⟩ 12 "", by simp, by norm_num⟩

/-- C6: when the BM25 result set is non-empty but its maximum raw score is
not positive, `keyword_search` performs no division and returns every score
exactly as produced by the collaborator. -/
theorem claim6_keyword_no_rescale_on_nonpositive_max {ε : Type}
    (bm25_search : String → Int → Except ε (List SearchResult))
    (request : SearchRequest) (raw : List SearchResult)
    (h : bm25_search request.query request.top_k = Except.ok raw)
    (_hne : raw ≠ [])
    (hmax : listMax (raw.map (·.score)) ≤ 0) :
    keyword_search bm25_search request = Except.ok (to_response raw) :=
  keyword_search_eq_nonpos bm25_search request raw h hmax

/-- C6 witness: raw scores `[-3, 0]`, maximum `0`, returned unchanged. -/
theorem claim6_keyword_no_rescale_witness :
    ((fun (_ : String) (_ : Int) => Except.ok (ε := Unit)
        [SearchResult.mk ⟨"d1", 0⟩ (-3) "", SearchResult.mk ⟨"d2", 1⟩ 0 ""])
      "q" 2 =
      Except.ok [SearchResult.mk ⟨"d1", 0⟩ (-3) "",
        SearchResult.mk ⟨"d2", 1⟩ 0 ""]) ∧
      ([SearchResult.mk ⟨"d1", 0⟩ (-3 : ℚ) "",
        SearchResult.mk ⟨"d2", 1⟩ 0 ""] ≠ []) ∧
      listMax ([SearchResult.mk ⟨"d1", 0⟩ (-3 : ℚ) "",
        SearchResult.mk ⟨"d2", 1⟩ 0 ""].map (·.score)) ≤ 0 ∧
      keyword_search
          (fun _ _ => Except.ok (ε := Unit)
            [SearchResult.mk ⟨"d1", 0⟩ (-3) "", SearchResult.mk ⟨"d2", 1⟩ 0 ""])
          ⟨"q", 2⟩ =
        Except.ok (to_response [SearchResult.mk ⟨"d1", 0⟩ (-3) "",
          SearchResult.mk ⟨"d2", 1⟩ 0 ""]) := by
  refine ⟨rfl, by simp, by norm_num [listMax], ?_⟩
  exact claim6_keyword_no_rescale_on_nonpositive_max _ ⟨"q", 2⟩ _ rfl (by simp)
    (by norm_num [listMax])

/-- C10: keyword-mode normalization preserves the number of results, and
dividing by the strictly positive maximum is monotone: the output scores at
two positions compare exactly as the raw scores at those positions. -/
theorem claim10_normalization_preserves_order {ε : Type}
    (bm25_search : String → Int → Except ε (List SearchResult))
    (request : SearchRequest) (raw : List SearchResult)
    (h : bm25_search request.query request.top_k = Except.ok raw)
    (hne : raw ≠ [])
    (hm : 0 < listMax (raw.map (·.score))) :
    keyword_search bm25_search request =
      Except.ok (to_response (normalize_by_max raw)) ∧
      (normalize_by_max raw).length = raw.length ∧
      (∀ (i j : Nat) (hi : i < (normalize_by_max raw).length)
        (hj : j < (normalize_by_max raw).length),
        (((normalize_by_max raw).get ⟨j, hj⟩).score ≤
            ((normalize_by_max raw).get ⟨i, hi⟩).score ↔
          (raw.get ⟨j, by simpa [normalize_by_max] using hj⟩).score ≤
            (raw.get ⟨i, by simpa [normalize_by_max] using hi⟩).score)) := by
  refine ⟨keyword_search_eq_pos bm25_search request raw h hne hm, by
    simp [normalize_by_max], ?_⟩
  intro i j hi hj
  have hget : ∀ (k : Nat) (hk : k < (normalize_by_max raw).length),
      (normalize_by_max raw).get ⟨k, hk⟩ =
        { raw.get ⟨k, by simpa [normalize_by_max] using hk⟩ with
          score := (raw.get ⟨k, by simpa [normalize_by_max] using hk⟩).score /
            listMax (raw.map (·.score)) } := by
    intro k hk
    simp [normalize_by_max]
  rw [hget i hi, hget j hj]
  exact div_le_div_iff_of_pos_right hm

/-- C10 witness: raw scores `[12, 6, 0]`; three items, order preserved. -/
theorem claim10_normalization_preserves_order_witness :
    (sample_bm25 "alpha" 3 = Except.ok sample_raw) ∧
      (sample_raw ≠ []) ∧
      (0 < listMax (sample_raw.map (·.score))) ∧
      (keyword_search sample_bm25 ⟨"alpha", 3⟩ =
          Except.ok (to_response (normalize_by_max sample_raw)) ∧
        (normalize_by_max sample_raw).length = sample_raw.length ∧
        (∀ (i j : Nat) (hi : i < (normalize_by_max sample_raw).length)
          (hj : j < (normalize_by_max sample_raw).length),
          (((normalize_by_max sample_raw).get ⟨j, hj⟩).score ≤
              ((normalize_by_max sample_raw).get ⟨i, hi⟩).score ↔
            (sample_raw.get ⟨j, by simpa [normalize_by_max] using hj⟩).score ≤
              (sample_raw.get ⟨i, by simpa [normalize_by_max] using hi⟩).score))) := by
  refine ⟨rfl, by simp [sample_raw], by norm_num [sample_raw, listMax, max_def], ?_⟩
  exact claim10_normalization_preserves_order sample_bm25 ⟨"alpha", 3⟩ sample_raw
    rfl (by simp [sample_raw]) (by norm_num [sample_raw, listMax, max_def])

/-- C3: in reranked-hybrid mode, when both the vector search and the BM25
search return empty lists, the operation returns an empty-result response
successfully, and it does so for every possible reranker behavior —
including one that always fails — so the reranker is never consulted. -/
theorem claim3_empty_candidates_short_circuit {ε : Type}
    (embed_query : String → Except ε (List ℚ))
    (similarity_search : List ℚ → Int → Except ε (List SearchResult))
    (bm25_search : String → Int → Except ε (List SearchResult))
    (request : SearchRequest) (query_vec : List ℚ)
    (he : embed_query request.query = Except.ok query_vec)
    (hv : similarity_search query_vec (expanded_k request.top_k) =
      Except.ok [])
    (hb : bm25_search request.query (expanded_k request.top_k) =
      Except.ok []) :
    ∀ rerank_fn : String → List SearchResult → Int →
        Except ε (List SearchResult),
      hybrid_search_reranked embed_query similarity_search bm25_search
        rerank_fn request = Except.ok (to_response []) := by
  intro rerank_fn
  rw [hybrid_search_reranked_eq embed_query similarity_search bm25_search
    rerank_fn request query_vec [] [] he hv hb]
  rfl

/-- C3 witness: all collaborators return empty lists; the reranker always
raises, yet the mode returns an empty response successfully. -/
theorem claim3_empty_candidates_witness :
    ((fun (_ : String) => Except.ok (ε := Unit) [(1 : ℚ)]) "q" =
      Except.ok [(1 : ℚ)]) ∧
      hybrid_search_reranked (fun _ => Except.ok (ε := Unit) [(1 : ℚ)])
          (fun _ _ => Except.ok []) (fun _ _ => Except.ok [])
          (fun _ _ _ => Except.error ()) ⟨"q", 3⟩ =
        Except.ok (to_response []) :=
  ⟨rfl,
    claim3_empty_candidates_short_circuit (fun _ => Except.ok [(1 : ℚ)])
      (fun _ _ => Except.ok []) (fun _ _ => Except.ok []) ⟨"q", 3⟩ [(1 : ℚ)]
      rfl rfl rfl (fun _ _ _ => Except.error ())⟩

/-- C4: reranked-hybrid mode computes `expanded_k = max(top_k * 3, 30)`
(30 for top_k = 5, 60 for top_k = 20) and consults the vector and BM25
collaborators only at that count: two runs whose collaborators agree at
`expanded_k top_k` produce identical results. -/
theorem claim4_expanded_k_overfetch :
    (∀ top_k : Int, 0 < top_k → expanded_k top_k = max (top_k * 3) 30) ∧
      expanded_k 5 = 30 ∧ expanded_k 20 = 60 ∧
      (∀ (ε : Type) (embed_query : String → Except ε (List ℚ))
        (sim₁ sim₂ : List ℚ → Int → Except ε (List SearchResult))
        (bm₁ bm₂ : String → Int → Except ε (List SearchResult))
        (rerank_fn : String → List SearchResult → Int →
          Except ε (List SearchResult))
        (request : SearchRequest),
        (∀ v, sim₁ v (expanded_k request.top_k) =
          sim₂ v (expanded_k request.top_k)) →
        bm₁ request.query (expanded_k request.top_k) =
          bm₂ request.query (expanded_k request.top_k) →
        hybrid_search_reranked embed_query sim₁ bm₁ rerank_fn request =
          hybrid_search_reranked embed_query sim₂ bm₂ rerank_fn request) := by
  refine ⟨fun _ _ => rfl, by decide, by decide, ?_⟩
  intro ε embed_query sim₁ sim₂ bm₁ bm₂ rerank_fn request hsim hbm
  unfold hybrid_search_reranked
  cases hq : embed_query request.query with
  | error e => rfl
  | ok v =>
    simp only [bind, Except.bind]
    rw [hsim v, hbm]

/-- C4 witness: `expanded_k 5 = 30` with `0 < 5`, and two reranked runs
whose collaborators agree at `expanded_k 5 = 30` coincide. -/
theorem claim4_expanded_k_witness :
    (0 < (5 : Int) ∧ expanded_k 5 = max (5 * 3) 30) ∧
      expanded_k 5 = 30 ∧ expanded_k 20 = 60 ∧
      hybrid_search_reranked (fun _ => Except.ok (ε := Unit) [(1 : ℚ)])
          (fun _ _ => Except.ok []) (fun _ _ => Except.ok [])
          (fun _ _ _ => Except.ok []) ⟨"q", 5⟩ =
        hybrid_search_reranked (fun _ => Except.ok (ε := Unit) [(1 : ℚ)])
          (fun _ k => if k = 30 then Except.ok [] else
            Except.error ())
          (fun _ k => if k = 30 then Except.ok [] else
            Except.error ())
          (fun _ _ _ => Except.ok []) ⟨"q", 5⟩ := by
  refine ⟨⟨by decide, claim4_expanded_k_overfetch.1 5 (by decide)⟩,
    claim4_expanded_k_overfetch.2.1, claim4_expanded_k_overfetch.2.2.1, ?_⟩
  refine claim4_expanded_k_overfetch.2.2.2 Unit _ _ _ _ _ _ ⟨"q", 5⟩ ?_ ?_
  · intro v
    rfl
  · rfl

/-- C7: in reranked-hybrid mode with a non-empty merged candidate set, the
result is exactly the reranker's output on the original query, the full
merged candidate list and the caller's original top_k, wrapped into the
response with no further transformation (and a reranker error propagates). -/
theorem claim7_rerank_invoked_with_merged_set {ε : Type}
    (embed_query : String → Except ε (List ℚ))
    (similarity_search : List ℚ → Int → Except ε (List SearchResult))
    (bm25_search : String → Int → Except ε (List SearchResult))
    (rerank_fn : String → List SearchResult → Int →
      Except ε (List SearchResult))
    (request : SearchRequest) (query_vec : List ℚ)
    (vres bres : List SearchResult)
    (he : embed_query request.query = Except.ok query_vec)
    (hv : similarity_search query_vec (expanded_k request.top_k) =
      Except.ok vres)
    (hb : bm25_search request.query (expanded_k request.top_k) =
      Except.ok bres)
    (hne : combineResults vres bres ≠ []) :
    hybrid_search_reranked embed_query similarity_search bm25_search
        rerank_fn request =
      Except.map to_response
        (rerank_fn request.query (combineResults vres bres)
          request.top_k) := by
  rw [hybrid_search_reranked_eq embed_query similarity_search bm25_search
    rerank_fn request query_vec vres bres he hv hb]
  rw [if_neg (by simpa [List.isEmpty_iff] using hne)]

/-- C7 witness: one vector hit and one distinct BM25 hit; a reranker that
reverses its candidates is applied to the merged two-element list with the
original top_k, and its output is returned verbatim. -/
theorem claim7_rerank_invoked_witness :
    (combineResults [SearchResult.mk ⟨"d1", 0⟩ (9 / 10) ""]
        [SearchResult.mk ⟨"d2", 0⟩ 12 ""] ≠ []) ∧
      hybrid_search_reranked (fun _ => Except.ok (ε := Unit) [(1 : ℚ)])
          (fun _ _ => Except.ok [SearchResult.mk ⟨"d1", 0⟩ (9 / 10) ""])
          (fun _ _ => Except.ok [SearchResult.mk ⟨"d2", 0⟩ 12 ""])
          (fun _ cands _ => Except.ok cands.reverse) ⟨"q", 2⟩ =
        Except.map to_response
          (Except.ok ((combineResults [SearchResult.mk ⟨"d1", 0⟩ (9 / 10) ""]
            [SearchResult.mk ⟨"d2", 0⟩ 12 ""]).reverse)) := by
  constructor
  · decide
  · exact claim7_rerank_invoked_with_merged_set
      (fun _ => Except.ok [(1 : ℚ)])
      (fun _ _ => Except.ok [SearchResult.mk ⟨"d1", 0⟩ (9 / 10) ""])
      (fun _ _ => Except.ok [SearchResult.mk ⟨"d2", 0⟩ 12 ""])
      (fun _ cands _ => Except.ok cands.reverse) ⟨"q", 2⟩ [(1 : ℚ)]
      [SearchResult.mk ⟨"d1", 0⟩ (9 / 10) ""]
      [SearchResult.mk ⟨"d2", 0⟩ 12 ""] rfl rfl rfl (by decide)

/-- C8: in engine-native hybrid mode, an error raised by the collaborator's
hybrid pipeline call is returned to the caller unmodified, with no partial
response, fallback or retry. -/
theorem claim8_native_error_propagates {ε : Type}
    (embed_query : String → Except ε (List ℚ))
    (hybrid_search_with_pipeline :
      String → List ℚ → String → Int → Except ε (List SearchResult))
    (request : SearchRequest) (query_vec : List ℚ) (e : ε)
    (he : embed_query request.query = Except.ok query_vec)
    (hf : hybrid_search_with_pipeline request.query query_vec
      "hybrid-search-pipeline" request.top_k = Except.error e) :
    hybrid_search_native embed_query hybrid_search_with_pipeline request =
      Except.error e := by
  rw [hybrid_search_native_eq embed_query hybrid_search_with_pipeline
    request query_vec he, hf]
  rfl

/-- C8 witness: a pipeline collaborator that always fails makes the
engine-native mode fail with that same error. -/
theorem claim8_native_error_witness :
    ((fun (_ : String) => Except.ok (ε := Unit) [(1 : ℚ)]) "q" =
      Except.ok [(1 : ℚ)]) ∧
      hybrid_search_native (fun _ => Except.ok (ε := Unit) [(1 : ℚ)])
          (fun _ _ _ _ => Except.error ()) ⟨"q", 3⟩ = Except.error () :=
  ⟨rfl,
    claim8_native_error_propagates (fun _ => Except.ok [(1 : ℚ)])
      (fun _ _ _ _ => Except.error ()) ⟨"q", 3⟩ [(1 : ℚ)] () rfl rfl⟩

/-- C9: a request of invalid shape (empty query or non-positive top_k) is
rejected as a client-input error in every search mode, whatever the
collaborators would return — no collaborator call can influence the
outcome. -/
theorem claim9_invalid_request_rejected {ε : Type} (request : SearchRequest)
    (hbad : request.query = "" ∨ request.top_k ≤ 0) :
    (∀ (embed_query : String → Except ε (List ℚ))
      (similarity_search : List ℚ → Int → Except ε (List SearchResult)),
      handle_search (vector_search embed_query similarity_search) request =
        Except.error ServiceError.clientInput) ∧
      (∀ bm25_search : String → Int → Except ε (List SearchResult),
        handle_search (keyword_search bm25_search) request =
          Except.error ServiceError.clientInput) ∧
      (∀ (embed_query : String → Except ε (List ℚ))
        (hybrid_search_with_pipeline :
          String → List ℚ → String → Int → Except ε (List SearchResult)),
        handle_search
            (hybrid_search_native embed_query hybrid_search_with_pipeline)
            request =
          Except.error ServiceError.clientInput) ∧
      (∀ (embed_query : String → Except ε (List ℚ))
        (similarity_search : List ℚ → Int → Except ε (List SearchResult))
        (bm25_search : String → Int → Except ε (List SearchResult))
        (rerank_fn : String → List SearchResult → Int →
          Except ε (List SearchResult)),
        handle_search
            (hybrid_search_reranked embed_query similarity_search bm25_search
              rerank_fn)
            request =
          Except.error ServiceError.clientInput) := by
  refine ⟨fun _ _ => ?_, fun _ => ?_, fun _ _ => ?_, fun _ _ _ _ => ?_⟩ <;>
    simp [handle_search, hbad]

/-- C9 witness: the empty query with positive top_k is rejected in all four
modes with collaborators that would otherwise succeed. -/
theorem claim9_invalid_request_witness :
    (("" : String) = "" ∨ (3 : Int) ≤ 0) ∧
      handle_search
          (vector_search (fun _ => Except.ok (ε := Unit) [(1 : ℚ)])
            (fun _ _ => Except.ok []))
          ⟨"", 3⟩ =
        Except.error ServiceError.clientInput ∧
      handle_search (keyword_search (fun _ _ => Except.ok (ε := Unit) []))
          ⟨"", 3⟩ =
        Except.error ServiceError.clientInput ∧
      handle_search
          (hybrid_search_native (fun _ => Except.ok (ε := Unit) [(1 : ℚ)])
            (fun _ _ _ _ => Except.ok []))
          ⟨"", 3⟩ =
        Except.error ServiceError.clientInput ∧
      handle_search
          (hybrid_search_reranked (fun _ => Except.ok (ε := Unit) [(1 : ℚ)])
            (fun _ _ => Except.ok []) (fun _ _ => Except.ok [])
            (fun _ _ _ => Except.ok []))
          ⟨"", 3⟩ =
        Except.error ServiceError.clientInput := by
  have hbad : (("" : String) = "" ∨ (3 : Int) ≤ 0) := Or.inl rfl
  have h := claim9_invalid_request_rejected (ε := Unit) ⟨"", 3⟩ hbad
  exact ⟨hbad, h.1 _ _, h.2.1 _, h.2.2.1 _ _, h.2.2.2 _ _ _ _⟩

lemma vector_search_eq {ε : Type}
    (embed_query : String → Except ε (List ℚ))
    (similarity_search : List ℚ → Int → Except ε (List SearchResult))
    (request : SearchRequest) (query_vec : List ℚ)
    (vres : List SearchResult)
    (he : embed_query request.query = Except.ok query_vec)
    (hv : similarity_search query_vec request.top_k = Except.ok vres) :
    vector_search embed_query similarity_search request =
      Except.ok (to_response vres) := by
  unfold vector_search
  simp only [bind, Except.bind, he, hv]
  rfl

lemma pairs_nodup_map_score (raw : List SearchResult)
    (f : SearchResult → ℚ) (h : pairs_nodup raw) :
    pairs_nodup (raw.map (fun r => { r with score := f r })) := by
  unfold pairs_nodup at h ⊢
  rw [List.map_map]
  exact h

/-- C5 fails as stated: the pure vector mode forwards the collaborator's
list verbatim, so a collaborator response repeating the same
`(doc_id, chunk_index)` appears twice in the returned response. -/
theorem claim5_duplicate_passthrough_counterexample :
    vector_search (fun _ => Except.ok (ε := Unit) [(1 : ℚ)])
        (fun _ _ => Except.ok [SearchResult.mk ⟨"d1", 0⟩ (9 / 10) "",
          SearchResult.mk ⟨"d1", 0⟩ (9 / 10) ""])
        ⟨"q", 2⟩ =
      Except.ok (to_response [SearchResult.mk ⟨"d1", 0⟩ (9 / 10) "",
        SearchResult.mk ⟨"d1", 0⟩ (9 / 10) ""]) ∧
      ¬ pairs_nodup [SearchResult.mk ⟨"d1", 0⟩ (9 / 10) "",
        SearchResult.mk ⟨"d1", 0⟩ (9 / 10) ""] := by
  constructor
  · rfl
  · simp [pairs_nodup, item_key]

/-- C5 (amended): each mode's response has pairwise-distinct
`(doc_id, chunk_index)` pairs provided each collaborator result list does
(for the reranker: provided it returns a duplicate-free selection from its
candidates); for the reranked mode's merged candidate list the property
holds unconditionally. -/
theorem claim5_no_duplicate_pairs :
    (∀ (ε : Type) (embed_query : String → Except ε (List ℚ))
      (similarity_search : List ℚ → Int → Except ε (List SearchResult))
      (request : SearchRequest) (query_vec : List ℚ)
      (vres : List SearchResult),
      embed_query request.query = Except.ok query_vec →
      similarity_search query_vec request.top_k = Except.ok vres →
      pairs_nodup vres →
      ∀ resp, vector_search embed_query similarity_search request =
        Except.ok resp → pairs_nodup resp.results) ∧
      (∀ (ε : Type) (bm25_search : String → Int → Except ε (List SearchResult))
        (request : SearchRequest) (raw : List SearchResult),
        bm25_search request.query request.top_k = Except.ok raw →
        pairs_nodup raw →
        ∀ resp, keyword_search bm25_search request = Except.ok resp →
          pairs_nodup resp.results) ∧
      (∀ (ε : Type) (embed_query : String → Except ε (List ℚ))
        (hybrid_search_with_pipeline :
          String → List ℚ → String → Int → Except ε (List SearchResult))
        (request : SearchRequest) (query_vec : List ℚ)
        (hres : List SearchResult),
        embed_query request.query = Except.ok query_vec →
        hybrid_search_with_pipeline request.query query_vec
          "hybrid-search-pipeline" request.top_k = Except.ok hres →
        pairs_nodup hres →
        ∀ resp, hybrid_search_native embed_query hybrid_search_with_pipeline
          request = Except.ok resp → pairs_nodup resp.results) ∧
      (∀ (ε : Type) (embed_query : String → Except ε (List ℚ))
        (similarity_search : List ℚ → Int → Except ε (List SearchResult))
        (bm25_search : String → Int → Except ε (List SearchResult))
        (rerank_fn : String → List SearchResult → Int →
          Except ε (List SearchResult))
        (request : SearchRequest) (query_vec : List ℚ)
        (vres bres : List SearchResult),
        embed_query request.query = Except.ok query_vec →
        similarity_search query_vec (expanded_k request.top_k) =
          Except.ok vres →
        bm25_search request.query (expanded_k request.top_k) =
          Except.ok bres →
        (∀ rres, rerank_fn request.query (combineResults vres bres)
          request.top_k = Except.ok rres →
          rres.Nodup ∧ ∀ z ∈ rres, z ∈ combineResults vres bres) →
        ∀ resp, hybrid_search_reranked embed_query similarity_search
          bm25_search rerank_fn request = Except.ok resp →
          pairs_nodup resp.results) ∧
      (∀ vres bres : List SearchResult,
        pairs_nodup (combineResults vres bres)) := by
  refine ⟨?_, ?_, ?_, ?_, combined_pairs_nodup⟩
  · intro ε embed_query similarity_search request query_vec vres he hv hnd
      resp hresp
    rw [vector_search_eq embed_query similarity_search request query_vec
      vres he hv] at hresp
    injection hresp with hresp
    rw [← hresp]
    exact hnd
  · intro ε bm25_search request raw h hnd resp hresp
    rw [keyword_search_eq bm25_search request raw h] at hresp
    injection hresp with hresp
    rw [← hresp]
    split
    · exact hnd
    · split
      · exact pairs_nodup_map_score raw _ hnd
      · exact hnd
  · intro ε embed_query hybrid_search_with_pipeline request query_vec hres
      he hh hnd resp hresp
    rw [hybrid_search_native_eq embed_query hybrid_search_with_pipeline
      request query_vec he, hh] at hresp
    simp only [Except.map] at hresp
    injection hresp with hresp
    rw [← hresp]
    exact hnd
  · intro ε embed_query similarity_search bm25_search rerank_fn request
      query_vec vres bres he hv hb hrr resp hresp
    rw [hybrid_search_reranked_eq embed_query similarity_search bm25_search
      rerank_fn request query_vec vres bres he hv hb] at hresp
    split at hresp
    · injection hresp with hresp
      rw [← hresp]
      simp [pairs_nodup, to_response]
    · cases hcall : rerank_fn request.query (combineResults vres bres)
        request.top_k with
      | error e => rw [hcall] at hresp; exact absurd hresp (by simp [Except.map])
      | ok rres =>
        rw [hcall] at hresp
        simp only [Except.map] at hresp
        injection hresp with hresp
        rw [← hresp]
        obtain ⟨hndr, hsub⟩ := hrr rres hcall
        unfold pairs_nodup to_response
        refine List.Nodup.map_on ?_ hndr
        intro x hx y hy hxy
        exact List.inj_on_of_nodup_map (combined_pairs_nodup vres bres)
          (hsub x hx) (hsub y hy) hxy

/-- C5 witness: the reranked mode with one vector hit and one distinct BM25
hit and a contract-respecting (empty-returning) reranker yields a
duplicate-free response; the merged candidate list is duplicate-free. -/
theorem claim5_no_duplicate_pairs_witness :
    (∀ resp, hybrid_search_reranked (fun _ => Except.ok (ε := Unit) [(1 : ℚ)])
        (fun _ _ => Except.ok [SearchResult.mk ⟨"d1", 0⟩ (9 / 10) ""])
        (fun _ _ => Except.ok [SearchResult.mk ⟨"d2", 0⟩ 12 ""])
        (fun _ _ _ => Except.ok []) ⟨"q", 2⟩ = Except.ok resp →
        pairs_nodup resp.results) ∧
      pairs_nodup (combineResults [SearchResult.mk ⟨"d1", 0⟩ (9 / 10) ""]
        [SearchResult.mk ⟨"d2", 0⟩ 12 ""]) := by
  constructor
  · exact claim5_no_duplicate_pairs.2.2.2.1 Unit _ _ _ _ ⟨"q", 2⟩ [(1 : ℚ)]
      [SearchResult.mk ⟨"d1", 0⟩ (9 / 10) ""]
      [SearchResult.mk ⟨"d2", 0⟩ 12 ""] rfl rfl rfl
      (fun rres hres => by
        injection hres with hres
        rw [← hres]
        exact ⟨List.nodup_nil, by simp⟩)
  · exact claim5_no_duplicate_pairs.2.2.2.2
      [SearchResult.mk ⟨"d1", 0⟩ (9 / 10) ""]
      [SearchResult.mk ⟨"d2", 0⟩ 12 ""]

end OSVDB
